import Mathlib

/-!
Verification of the order-ledger and authentication core of the
orsa-admin-backend service, shallowly embedded from the JavaScript source.

Conventions of the embedding:
* Database tables are lists of rows; the `users` and `products` tables of the
  external repositories are modelled by their id columns only, since the order
  ledger touches them solely through foreign-key constraints and joins.
* JavaScript numbers are modelled as integers (`Int`, e.g. prices in scaled
  minor units); floating-point representation and rounding are outside the
  model, which keeps the arithmetic exact and every definition evaluable.
* Every `connection.execute` call inside a transaction may fail (network loss,
  constraint violation raised by the engine, ...).  Each transactional service
  function therefore takes a failure oracle `fail : Nat → Option JsError`
  giving, for each execute-step index in program order, the error the storage
  layer throws at that step (`none` = the statement succeeds).  Foreign-key
  violations are modelled explicitly in addition to the oracle.
* A transaction that throws performs `rollback` and the function returns the
  caller-visible state unchanged, paired with the thrown error
  (`DB × Except JsError α`).
-/

namespace Orsa

/-- A thrown JavaScript `Error`, as the handler layer sees it: an optional
driver error `code` (e.g. `ER_DUP_ENTRY`) plus a message. -/
structure JsError where
  code : Option String
  message : String
  deriving Repr, DecidableEq

/-- A row of the `orders` table. -/
structure OrderRow where
  id : Nat
  user_id : Nat
  user_name : Option String
  user_location : Option String
  order_status : String
  total_price : Int
  deriving Repr, DecidableEq

/-- A row of the `order_items` table.  `total_price` is the stored line
total. -/
structure ItemRow where
  id : Nat
  order_id : Nat
  product_id : Nat
  product_name : Option String
  quantity : Int
  unit_price : Int
  total_price : Int
  deriving Repr, DecidableEq

/-- The relational store.  `users` and `products` are the id columns of the
externally owned tables (foreign-key targets of `orders.user_id` and
`order_items.product_id`).  `nextOrderId` / `nextItemId` model the
auto-increment counters. -/
structure DB where
  users : List Nat
  products : List Nat
  orders : List OrderRow
  order_items : List ItemRow
  nextOrderId : Nat
  nextItemId : Nat
  deriving Repr, DecidableEq

/-- One item of the `items` array accepted by `createOrder` and
`addOrderItem`: `product_id`, optional `product_name`, `quantity`,
`unit_price`. -/
structure ItemInput where
  product_id : Nat
  product_name : Option String
  quantity : Int
  unit_price : Int
  deriving Repr, DecidableEq

/-- The `orderData` body accepted by `createOrder`.  `Option` marks fields the
caller may omit; JavaScript truthiness of the present values is applied where
the source applies it. -/
structure OrderData where
  user_id : Nat
  user_name : Option String
  user_location : Option String
  order_status : Option String
  total_price : Option Int
  items : Option (List ItemInput)
  deriving Repr, DecidableEq

/-- JavaScript truthiness of an optional number: absent, `null` and `0` are
falsy. -/
def truthyNum : Option Int → Bool
  | none => false
  | some x => x != 0

/-- JavaScript truthiness of an optional string: absent, `null` and the empty
string are falsy. -/
def truthyStr : Option String → Bool
  | none => false
  | some s => s != ""

/-- JavaScript truthiness of an optional id number (`0` is falsy). -/
def truthyNat : Option Nat → Bool
  | none => false
  | some n => n != 0

/-- `a || d` on an optional string against a string default
(`orderData.order_status || "pending"`). -/
def strOr (a : Option String) (d : String) : String :=
  if truthyStr a then a.getD d else d

/-- `a || 0` on an optional number (`orderData.total_price || 0`). -/
def numOrZero (a : Option Int) : Int :=
  if truthyNum a then a.getD 0 else 0

/-- `x || b` where `x` is a number and `b` an optional number
(`totalPrice || orderData.total_price`): a nonzero `x` wins, otherwise the
raw second operand (possibly `undefined`) is returned. -/
def jsOrNum (x : Int) (b : Option Int) : Option Int :=
  if x != 0 then some x else b

/-- The error MySQL raises for a violated foreign-key constraint. -/
def fkError (detail : String) : JsError :=
  ⟨some "ER_NO_REFERENCED_ROW_2",
    "Cannot add or update a child row: a foreign key constraint fails (" ++
      detail ++ ")"⟩

/-- `new Error("Item not found")` thrown by `removeOrderItem`: a plain
JavaScript error carrying no driver code. -/
def itemNotFoundError : JsError := ⟨none, "Item not found"⟩

/-- Result object of `createOrder`. -/
structure CreateResult where
  id : Nat
  message : String
  total_price : Option Int
  deriving Repr, DecidableEq

/-- Result object of `addOrderItem`. -/
structure AddResult where
  message : String
  item_total : Int
  deriving Repr, DecidableEq

/-- Result object of `deleteOrder` (`affectedRows` is reported from the
`DELETE FROM orders` statement). -/
structure DeleteResult where
  message : String
  affectedRows : Nat
  deriving Repr, DecidableEq

/-- The failure oracle under which every storage statement succeeds. -/
def noFail : Nat → Option JsError := fun _ => none

instance {ε α : Type} [DecidableEq ε] [DecidableEq α] :
    DecidableEq (Except ε α) := fun a b =>
  match a, b with
  | .ok x, .ok y =>
    if h : x = y then .isTrue (by rw [h]) else .isFalse (by simp [h])
  | .error x, .error y =>
    if h : x = y then .isTrue (by rw [h]) else .isFalse (by simp [h])
  | .ok _, .error _ => .isFalse (by simp)
  | .error _, .ok _ => .isFalse (by simp)

/-- The item-insertion loop of `createOrder` (`for (const item of
orderData.items)`): computes each line total `quantity * unit_price`,
accumulates the running total, and inserts the item row.  `step` is the
execute-step index of the first insert.  Each insert checks the
`order_items.product_id` foreign key and consults the failure oracle; an
error aborts the whole loop. -/
def insertItems (fail : Nat → Option JsError) (db : DB) (orderId : Nat) :
    List ItemInput → Nat → Except JsError (DB × Int)
  | [], _ => .ok (db, 0)
  | item :: rest, step =>
    match fail step with
    | some e => .error e
    | none =>
      if item.product_id ∈ db.products then
        let itemTotal := item.quantity * item.unit_price
        let row : ItemRow :=
          { id := db.nextItemId, order_id := orderId,
            product_id := item.product_id, product_name := item.product_name,
            quantity := item.quantity, unit_price := item.unit_price,
            total_price := itemTotal }
        let db' : DB :=
          { db with order_items := db.order_items ++ [row],
                    nextItemId := db.nextItemId + 1 }
        match insertItems fail db' orderId rest (step + 1) with
        | .ok (db'', t) => .ok (db'', itemTotal + t)
        | .error e => .error e
      else .error (fkError "order_items, product_id")

/-- `createOrder(orderData)` of `orderService.js`: one transaction that
inserts the order row (status defaulted to `"pending"`, total to
`orderData.total_price || 0`), inserts every supplied item accumulating
`totalPrice`, then — only when `totalPrice > 0 && !orderData.total_price` —
updates the order row to the computed total.  Any error rolls the whole
transaction back.  Returns
`total_price = totalPrice || orderData.total_price`. -/
def createOrder (fail : Nat → Option JsError) (db : DB) (orderData : OrderData) :
    DB × Except JsError CreateResult :=
  match fail 0 with
  | some e => (db, .error e)
  | none =>
    if orderData.user_id ∈ db.users then
      let orderId := db.nextOrderId
      let row : OrderRow :=
        { id := orderId, user_id := orderData.user_id,
          user_name := orderData.user_name,
          user_location := orderData.user_location,
          order_status := strOr orderData.order_status "pending",
          total_price := numOrZero orderData.total_price }
      let db1 : DB :=
        { db with orders := db.orders ++ [row], nextOrderId := orderId + 1 }
      let itemsList := orderData.items.getD []
      match insertItems fail db1 orderId itemsList 1 with
      | .error e => (db, .error e)
      | .ok (db2, totalPrice) =>
        if 0 < totalPrice ∧ truthyNum orderData.total_price = false then
          match fail (1 + itemsList.length) with
          | some e => (db, .error e)
          | none =>
            let db3 : DB :=
              { db2 with orders := db2.orders.map fun o =>
                  if o.id = orderId then { o with total_price := totalPrice }
                  else o }
            (db3, .ok { id := orderId, message := "Order created successfully",
                        total_price := jsOrNum totalPrice orderData.total_price })
        else
          (db2, .ok { id := orderId, message := "Order created successfully",
                      total_price := jsOrNum totalPrice orderData.total_price })
    else (db, .error (fkError "orders, user_id"))

/-- `addOrderItem(orderId, item)` of `orderService.js`: one transaction that
inserts the item row with line total `quantity * unit_price` (step 0; the
insert enforces the `order_id` and `product_id` foreign keys) and then
increments the parent order with
`UPDATE orders SET total_price = total_price + ?` (step 1).  No order-status
check is performed at this layer. -/
def addOrderItem (fail : Nat → Option JsError) (db : DB) (orderId : Nat)
    (item : ItemInput) : DB × Except JsError AddResult :=
  match fail 0 with
  | some e => (db, .error e)
  | none =>
    if ∃ o ∈ db.orders, o.id = orderId then
      if item.product_id ∈ db.products then
        let itemTotal := item.quantity * item.unit_price
        let row : ItemRow :=
          { id := db.nextItemId, order_id := orderId,
            product_id := item.product_id, product_name := item.product_name,
            quantity := item.quantity, unit_price := item.unit_price,
            total_price := itemTotal }
        let db1 : DB :=
          { db with order_items := db.order_items ++ [row],
                    nextItemId := db.nextItemId + 1 }
        match fail 1 with
        | some e => (db, .error e)
        | none =>
          let db2 : DB :=
            { db1 with orders := db1.orders.map fun o =>
                if o.id = orderId then
                  { o with total_price := o.total_price + itemTotal }
                else o }
          (db2, .ok ⟨"Item added to order successfully", itemTotal⟩)
      else (db, .error (fkError "order_items, product_id"))
    else (db, .error (fkError "order_items, order_id"))

/-- `removeOrderItem(itemId)` of `orderService.js`: one transaction that reads
the item row (step 0; throws `Error("Item not found")` when no row matches),
deletes it (step 1), and decrements the parent order with
`UPDATE orders SET total_price = total_price - ?` using the stored line total
(step 2). -/
def removeOrderItem (fail : Nat → Option JsError) (db : DB) (itemId : Nat) :
    DB × Except JsError String :=
  match fail 0 with
  | some e => (db, .error e)
  | none =>
    match db.order_items.find? (fun i => i.id == itemId) with
    | none => (db, .error itemNotFoundError)
    | some it =>
      match fail 1 with
      | some e => (db, .error e)
      | none =>
        let db1 : DB :=
          { db with order_items := db.order_items.filter fun i => i.id != itemId }
        match fail 2 with
        | some e => (db, .error e)
        | none =>
          let db2 : DB :=
            { db1 with orders := db1.orders.map fun o =>
                if o.id = it.order_id then
                  { o with total_price := o.total_price - it.total_price }
                else o }
          (db2, .ok "Item removed from order successfully")

/-- `deleteOrder(id)` of `orderService.js`: one transaction that deletes the
item rows of the order (step 0) and then the order row itself (step 1),
reporting `affectedRows` of the second delete.  No not-found check is
performed: deleting an absent id commits normally with `affectedRows = 0`. -/
def deleteOrder (fail : Nat → Option JsError) (db : DB) (id : Nat) :
    DB × Except JsError DeleteResult :=
  match fail 0 with
  | some e => (db, .error e)
  | none =>
    let db1 : DB :=
      { db with order_items := db.order_items.filter fun i => i.order_id != id }
    match fail 1 with
    | some e => (db, .error e)
    | none =>
      let affected := (db1.orders.filter fun o => o.id == id).length
      let db2 : DB :=
        { db1 with orders := db1.orders.filter fun o => o.id != id }
      (db2, .ok ⟨"Order deleted successfully", affected⟩)

/-- `getOrderById(id)` of `orderService.js`: the order row joined with its
user row (an order whose user is missing yields no row, like the SQL inner
join), plus its item rows joined with their product rows. -/
def getOrderById (db : DB) (id : Nat) : Option (OrderRow × List ItemRow) :=
  match db.orders.find? (fun o => o.id == id && db.users.contains o.user_id) with
  | none => none
  | some o =>
      some (o, db.order_items.filter fun i =>
        i.order_id == id && db.products.contains i.product_id)

/-! ## HTTP handler layer

Responses are modelled by their status code and the body fields the claims
mention (`error`, `message`, `itemTotal`); headers and JSON serialisation are
elided. -/

/-- An API Gateway response as built by `createResponse`. -/
structure ApiResponse where
  statusCode : Nat
  error : Option String := none
  message : Option String := none
  itemTotal : Option Int := none
  deriving Repr, DecidableEq

/-- `handleError` of `handler.js`: maps a thrown error to a response by its
driver code — `ER_DUP_ENTRY` to 409, `ER_NO_REFERENCED_ROW` to 400, and
everything else (any error without one of those codes) to a 500
`Server error` echoing the message. -/
def handleError (e : JsError) : ApiResponse :=
  if e.code = some "ER_DUP_ENTRY" then
    { statusCode := 409, error := some "Duplicate entry",
      message := some "A record with this data already exists" }
  else if e.code = some "ER_NO_REFERENCED_ROW" then
    { statusCode := 400, error := some "Invalid reference",
      message := some "Referenced record does not exist" }
  else
    { statusCode := 500, error := some "Server error", message := some e.message }

/-- The parsed request body of the add-item endpoint; `Option` marks fields
the caller may omit, and JavaScript truthiness is applied to the present
values where the handler applies it. -/
structure ItemBody where
  product_id : Option Nat
  product_name : Option String
  quantity : Option Int
  unit_price : Option Int
  deriving Repr, DecidableEq

/-- The item object `handler.js` forwards to the service after its presence
checks (the service reads the fields directly). -/
def ItemBody.toInput (b : ItemBody) : ItemInput :=
  { product_id := b.product_id.getD 0, product_name := b.product_name,
    quantity := b.quantity.getD 0, unit_price := b.unit_price.getD 0 }

/-- `exports.addOrderItem` of `handler.js` (the module `serverless.yml` routes
`POST /orders/.../items` to): requires a path id and truthy `product_id`,
`quantity`, `unit_price`; 404 when `getOrderById` finds nothing; then calls
the service.  It performs no order-status check. -/
def handlerAddOrderItem (fail : Nat → Option JsError) (db : DB)
    (orderId : Option Nat) (itemData : ItemBody) : DB × ApiResponse :=
  match orderId with
  | none => (db, { statusCode := 400, error := some "Order ID is required" })
  | some oid =>
    if truthyNat itemData.product_id && truthyNum itemData.quantity &&
        truthyNum itemData.unit_price then
      match getOrderById db oid with
      | none => (db, { statusCode := 404, error := some "Order not found" })
      | some _ =>
        match addOrderItem fail db oid itemData.toInput with
        | (db', .ok r) =>
            (db', { statusCode := 201,
                    message := some "Item added to order successfully",
                    itemTotal := some r.item_total })
        | (db', .error e) => (db', handleError e)
    else
      (db, { statusCode := 400,
             error := some "Product ID, quantity, and unit price are required" })

/-- `exports.removeOrderItem` of `handler.js`: requires a path `itemId`, calls
the service, and funnels any thrown error — including the
`Error("Item not found")` of a missing item — through `handleError`. -/
def handlerRemoveOrderItem (fail : Nat → Option JsError) (db : DB)
    (itemId : Option Nat) : DB × ApiResponse :=
  match itemId with
  | none => (db, { statusCode := 400, error := some "Item ID is required" })
  | some iid =>
    match removeOrderItem fail db iid with
    | (db', .ok _) =>
        (db', { statusCode := 200,
                message := some "Item removed from order successfully" })
    | (db', .error e) => (db', handleError e)

/-- ASCII lower-casing of one character, as `toLowerCase()` acts on the
status strings of this schema. -/
def lowerChar (c : Char) : Char :=
  if 65 ≤ c.toNat ∧ c.toNat ≤ 90 then Char.ofNat (c.toNat + 32) else c

/-- JavaScript `s.toLowerCase()` on the ASCII status strings. -/
def jsToLower (s : String) : String := ⟨s.data.map lowerChar⟩

/-- The statuses the enhanced handler lets `addOrderItem` modify. -/
def editableStatuses : List String := ["pending", "confirmed"]

/-- The tail of `exports.addOrderItem` in the enhanced handler variant (the
unnamed duplicate of `handler.js` carrying validation and the embedded API
documentation), starting at the order-existence check; the preceding steps
are storage-independent input-format validation.  After the 404 check it
rejects with a 400 `Order cannot be modified` response whenever the order
status, lower-cased, is not `pending` or `confirmed`, and only otherwise
calls the service. -/
def enhancedAddOrderItem (fail : Nat → Option JsError) (db : DB)
    (orderId : Nat) (item : ItemInput) : DB × ApiResponse :=
  match getOrderById db orderId with
  | none => (db, { statusCode := 404, error := some "Order not found" })
  | some (o, _) =>
    if editableStatuses.contains (jsToLower o.order_status) then
      match addOrderItem fail db orderId item with
      | (db', .ok r) =>
          (db', { statusCode := 201,
                  message := some "Item added to order successfully",
                  itemTotal := some r.item_total })
      | (db', .error e) => (db', handleError e)
    else
      (db, { statusCode := 400, error := some "Order cannot be modified",
             message := some
               "Items can only be added to orders with status: pending, confirmed" })

/-! ## Authentication and authorization layer

The external pieces — JWKS key retrieval and RSA signature verification by
`jwt.verify`, and the out-of-VPC authentication Lambda — are oracles: a
`verdict` gives the outcome of decoding and cryptographically verifying the
request token (everything `jwt.verify` checks), and `extAuth` the outcome of
invoking the external authentication function. -/

/-- The claims of a decoded Cognito token payload used by this service.
`cognitoUsername` and `cognitoGroups` are the `cognito:username` and
`cognito:groups` claims. -/
structure TokenPayload where
  sub : String
  username : Option String
  cognitoUsername : Option String
  email : Option String
  cognitoGroups : Option (List String)
  token_use : String
  aud : String
  deriving Repr, DecidableEq

/-- The user object `authenticate` derives from a verified payload. -/
structure AuthUser where
  userId : String
  username : Option String
  email : Option String
  groups : List String
  tokenUse : String
  clientId : String
  isAdmin : Bool
  deriving Repr, DecidableEq

/-- The request data the middleware inspects: the HTTP method (from
`event.httpMethod` or `event.requestContext.http.method`) and the
`Authorization` header (from `headers.authorization` or
`headers.Authorization`). -/
structure AuthEvent where
  httpMethod : Option String
  authorization : Option String
  deriving Repr, DecidableEq

/-- The environment configuration the auth layer reads. -/
structure AuthEnv where
  userPoolId : Option String
  clientId : Option String
  stage : Option String
  vpcFunction : Option String
  deriving Repr, DecidableEq

/-- Middleware options of `withAuth`. -/
structure AuthOptions where
  skipAuth : Bool := false
  requireAdmin : Bool := false
  useExternalAuth : Bool := false
  deriving Repr, DecidableEq

/-- JavaScript `s.includes(pat)`: substring containment. -/
def jsIncludes (s pat : String) : Bool := decide (pat.data <:+: s.data)

/-- Splitting a character list at every occurrence of a separator, keeping
empty segments — the semantics of JavaScript `split`. -/
def jsSplit (sep : Char) : List Char → List (List Char)
  | [] => [[]]
  | c :: rest =>
    match jsSplit sep rest with
    | [] => [[]]
    | p :: ps => if c = sep then [] :: p :: ps else (c :: p) :: ps

/-- JavaScript `authHeader.split(" ")`. -/
def jsSplitOnSpace (s : String) : List String :=
  (jsSplit ' ' s.data).map fun cs => ⟨cs⟩

/-- `extractToken` of `authService.js`: the header must exist and split on
single spaces into exactly `["Bearer", token]`. -/
def extractToken (authHeader : Option String) : Except JsError String :=
  match authHeader with
  | none => .error ⟨none, "No authorization header found"⟩
  | some h =>
    let parts := jsSplitOnSpace h
    if parts.length = 2 ∧ parts.head? = some "Bearer" then
      .ok (parts.getD 1 "")
    else
      .error ⟨none,
        "Invalid authorization header format. Expected: Bearer <token>"⟩

/-- `verifyToken` of `authService.js`, given the outcome of the external
decode / key-fetch / `jwt.verify` work: on top of that outcome it rejects any
`token_use` other than `"access"` or `"id"`, and wraps every failure message
as `Token verification failed: ...`. -/
def verifyToken (verdict : Except String TokenPayload) :
    Except JsError TokenPayload :=
  match verdict with
  | .error m => .error ⟨none, "Token verification failed: " ++ m⟩
  | .ok p =>
    if p.token_use ≠ "access" ∧ p.token_use ≠ "id" then
      .error ⟨none, "Token verification failed: Invalid token use"⟩
    else .ok p

/-- `authenticate` of `authService.js`: checks the Cognito configuration,
extracts and verifies the token, and derives the user object —
`username: payload.username || payload["cognito:username"]`,
`groups: payload["cognito:groups"] || []`,
`isAdmin: (payload["cognito:groups"] || []).includes("admin")`. -/
def authenticate (env : AuthEnv) (verdict : Except String TokenPayload)
    (event : AuthEvent) : Except JsError AuthUser :=
  if truthyStr env.userPoolId && truthyStr env.clientId then
    match extractToken event.authorization with
    | .error e => .error e
    | .ok _token =>
      match verifyToken verdict with
      | .error e => .error e
      | .ok p =>
        .ok { userId := p.sub,
              username := if truthyStr p.username then p.username
                          else p.cognitoUsername,
              email := p.email,
              groups := p.cognitoGroups.getD [],
              tokenUse := p.token_use,
              clientId := p.aud,
              isAdmin := (p.cognitoGroups.getD []).contains "admin" }
  else
    .error ⟨none,
      "Cognito configuration missing. Please set COGNITO_USER_POOL_ID and COGNITO_CLIENT_ID environment variables."⟩

/-- The identity mapping as the specification states it (amended): the
subject, the `username` claim falling back to the `cognito:username` claim
when absent (never to the subject), the email, the `cognito:groups` claim
defaulting to the empty list, and an admin flag that holds exactly when the
group list contains the exact, case-sensitive string `"admin"`. -/
def deriveIdentitySpec (p : TokenPayload) : AuthUser :=
  { userId := p.sub,
    username := if truthyStr p.username then p.username else p.cognitoUsername,
    email := p.email,
    groups := match p.cognitoGroups with | none => [] | some g => g,
    tokenUse := p.token_use,
    clientId := p.aud,
    isAdmin :=
      decide ("admin" ∈ (match p.cognitoGroups with | none => [] | some g => g)) }

/-- The authentication step of `withAuth` (`authMiddleware.js` lines
105-139): on a VPC function (or when externally requested) it tries the
external authentication Lambda first and falls back to direct
`authenticate`, re-throwing the original external error when both fail;
otherwise it authenticates directly. -/
def authOutcome (opts : AuthOptions) (env : AuthEnv)
    (extAuth : Except JsError AuthUser) (verdict : Except String TokenPayload)
    (event : AuthEvent) : Except JsError AuthUser :=
  if env.vpcFunction = some "true" ∨ opts.useExternalAuth then
    match extAuth with
    | .ok u => .ok u
    | .error eExt =>
      match authenticate env verdict event with
      | .ok u => .ok u
      | .error _ => .error eExt
  else authenticate env verdict event

/-- The 401 response of the middleware catch block. -/
def unauthorizedResponse : ApiResponse :=
  { statusCode := 401, error := some "Unauthorized",
    message := some "Authentication required" }

/-- The 403 response of the admin gate. -/
def forbiddenResponse : ApiResponse :=
  { statusCode := 403, error := some "Forbidden",
    message := some "Admin access required" }

/-- The catch block of `withAuth`: a 401 when the message names a missing or
malformed header or a verification failure, a 500 for missing Cognito
configuration, and a generic 500 otherwise. -/
def classifyAuthError (e : JsError) : ApiResponse :=
  if jsIncludes e.message "No authorization header" ||
      jsIncludes e.message "Invalid authorization header" ||
      jsIncludes e.message "Token verification failed" then
    unauthorizedResponse
  else if jsIncludes e.message "Cognito configuration missing" then
    { statusCode := 500, error := some "Internal Server Error",
      message := some "Authentication service not configured" }
  else
    { statusCode := 500, error := some "Internal Server Error",
      message := some "Authentication failed" }

/-- `withAuth` of `authMiddleware.js`: CORS preflights short-circuit with
200; `skipAuth` in the dev stage bypasses authentication; otherwise the
request is authenticated (`authOutcome`), failures are classified by the
catch block, and — only after successful authentication — a route with
`requireAdmin` rejects non-admin users with 403 before the wrapped handler
(modelled as a function of the attached user) runs. -/
def withAuth (opts : AuthOptions) (env : AuthEnv)
    (extAuth : Except JsError AuthUser) (verdict : Except String TokenPayload)
    (handler : Option AuthUser → ApiResponse) (event : AuthEvent) :
    ApiResponse :=
  if event.httpMethod = some "OPTIONS" then
    { statusCode := 200, message := some "CORS preflight" }
  else if opts.skipAuth && env.stage = some "dev" then
    handler none
  else
    match authOutcome opts env extAuth verdict event with
    | .error e => classifyAuthError e
    | .ok user =>
      if opts.requireAdmin && !user.isAdmin then forbiddenResponse
      else handler (some user)

/-! ## Invariants of the order ledger -/

/-- Sum of the stored line totals of the items currently attached to order
`oid`. -/
def itemsSum (db : DB) (oid : Nat) : Int :=
  ((db.order_items.filter fun i => i.order_id == oid).map
    fun i => i.total_price).sum

/-- The price-consistency invariant: every order carries the sum of the
stored line totals of its items. -/
def Consistent (db : DB) : Prop :=
  ∀ o ∈ db.orders, o.total_price = itemsSum db o.id

/-- Structural well-formedness maintained by the storage engine: primary keys
are pairwise distinct and below the auto-increment counters. -/
structure WF (db : DB) : Prop where
  ordersLt : ∀ o ∈ db.orders, o.id < db.nextOrderId
  itemsLt : ∀ i ∈ db.order_items, i.id < db.nextItemId
  ordersNodup : db.orders.Pairwise fun a b => a.id ≠ b.id
  itemsNodup : db.order_items.Pairwise fun a b => a.id ≠ b.id

/-- One item-mutating call against the ledger, carrying its own failure
oracle. -/
inductive LedgerOp where
  | add (fail : Nat → Option JsError) (orderId : Nat) (item : ItemInput)
  | remove (fail : Nat → Option JsError) (itemId : Nat)

/-- The state left behind by one ledger call (a failed call rolls back). -/
def applyOp (db : DB) : LedgerOp → DB
  | .add fail oid item => (addOrderItem fail db oid item).1
  | .remove fail iid => (removeOrderItem fail db iid).1

/-- The state after a sequence of `addOrderItem` / `removeOrderItem` calls. -/
def applyOps (db : DB) (ops : List LedgerOp) : DB :=
  ops.foldl applyOp db

/-- The computed items total of a `createOrder` body. -/
def computedTotal (orderData : OrderData) : Int :=
  ((orderData.items.getD []).map fun i => i.quantity * i.unit_price).sum

/-! ## Concrete instances used by witnesses and counterexamples -/

/-- A store with one user, three products, and one already shipped order
holding one item. -/
def sampleDB : DB :=
  { users := [1], products := [5, 7, 9],
    orders := [{ id := 1, user_id := 1, user_name := none,
                 user_location := none, order_status := "shipped",
                 total_price := 20 }],
    order_items := [{ id := 1, order_id := 1, product_id := 5,
                      product_name := none, quantity := 2, unit_price := 10,
                      total_price := 20 }],
    nextOrderId := 2, nextItemId := 2 }

/-- A `createOrder` body supplying an explicit total of 100 together with one
item whose computed line total is 10. -/
def odExplicitTotal : OrderData :=
  { user_id := 1, user_name := none, user_location := none,
    order_status := none, total_price := some 100,
    items := some [⟨5, none, 2, 5⟩] }

/-- A `createOrder` body with no explicit total and two items totalling 39. -/
def odNoTotal : OrderData :=
  { user_id := 1, user_name := some "Jo", user_location := none,
    order_status := none, total_price := none,
    items := some [⟨5, none, 2, 15⟩, ⟨7, none, 1, 9⟩] }

/-- A `createOrder` body supplying `total_price = 0` together with one item
whose computed line total is 10. -/
def odZeroTotal : OrderData :=
  { user_id := 1, user_name := none, user_location := none,
    order_status := none, total_price := some 0,
    items := some [⟨5, none, 2, 5⟩] }

/-- A `createOrder` body whose second item references the non-existent
product 42. -/
def odBadProduct : OrderData :=
  { user_id := 1, user_name := none, user_location := none,
    order_status := none, total_price := none,
    items := some [⟨5, none, 2, 5⟩, ⟨42, none, 1, 1⟩] }

/-- A well-configured auth environment. -/
def sampleEnv : AuthEnv :=
  { userPoolId := some "pool", clientId := some "client",
    stage := none, vpcFunction := none }

/-- A request carrying a syntactically valid bearer token. -/
def sampleEvent : AuthEvent :=
  { httpMethod := some "POST", authorization := some "Bearer abc" }

/-- A verified payload carrying neither a `username` nor a `cognito:username`
claim. -/
def payloadNoUsername : TokenPayload :=
  { sub := "user-sub-1", username := none, cognitoUsername := none,
    email := none, cognitoGroups := none, token_use := "access",
    aud := "client" }

/-- A verified payload of a non-admin user. -/
def payloadNonAdmin : TokenPayload :=
  { sub := "s1", username := none, cognitoUsername := some "bob",
    email := none, cognitoGroups := some ["users"], token_use := "access",
    aud := "client" }

end Orsa

namespace Orsa

/-! ## Supporting lemmas -/

/-- What a successful run of the item-insertion loop of `createOrder` did:
it only appended item rows — one per input, all attached to `orderId`, with
stored line totals `quantity * unit_price` — bumped `nextItemId`
accordingly, returned the sum of the line totals, and implies every input
referenced an existing product. -/
theorem insertItems_ok_spec (fail : Nat → Option JsError) (orderId : Nat) :
    ∀ (items : List ItemInput) (db : DB) (step : Nat) (db' : DB) (t : Int),
      insertItems fail db orderId items step = .ok (db', t) →
      db'.users = db.users ∧ db'.products = db.products ∧
      db'.orders = db.orders ∧ db'.nextOrderId = db.nextOrderId ∧
      db'.nextItemId = db.nextItemId + items.length ∧
      t = (items.map fun i => i.quantity * i.unit_price).sum ∧
      (∀ i ∈ items, i.product_id ∈ db.products) ∧
      ∃ rows, db'.order_items = db.order_items ++ rows ∧
        rows.length = items.length ∧
        (∀ r ∈ rows, r.order_id = orderId) ∧
        rows.map (fun r => r.total_price) =
          items.map fun i => i.quantity * i.unit_price := by
  intro items
  induction items with
  | nil =>
    intro db step db' t h
    simp only [insertItems, Except.ok.injEq, Prod.mk.injEq] at h
    obtain ⟨h1, h2⟩ := h
    subst h1; subst h2
    exact ⟨rfl, rfl, rfl, rfl, by simp, by simp, by simp, [], by simp, rfl,
      by simp, by simp⟩
  | cons item rest ih =>
    intro db step db' t h
    rw [insertItems] at h
    split at h
    · exact absurd h (by simp)
    · split at h
      · rename_i hp
        simp only [] at h
        split at h
        · rename_i db'' t' heq
          simp only [Except.ok.injEq, Prod.mk.injEq] at h
          obtain ⟨hdb, ht⟩ := h
          subst hdb
          obtain ⟨hu, hprod, hord, hnoid, hniid, ht', hmem, rows', hitems,
            hlen, hoid, htotals⟩ := ih _ _ _ _ heq
          refine ⟨by simpa using hu, by simpa using hprod, by simpa using hord,
            by simpa using hnoid, ?_, ?_, ?_, ?_⟩
          · simp only [hniid]; simp; omega
          · subst ht; subst ht'; simp
          · intro i hi
            rcases List.mem_cons.mp hi with hi | hi
            · subst hi; exact hp
            · have := hmem i hi; simpa using this
          · refine ⟨(⟨db.nextItemId, orderId, item.product_id,
                item.product_name, item.quantity, item.unit_price,
                item.quantity * item.unit_price⟩ : ItemRow) :: rows',
              ?_, by simp [hlen], ?_, ?_⟩
            · simp only [hitems]; simp
            · intro r hr'
              rcases List.mem_cons.mp hr' with hr' | hr'
              · subst hr'; rfl
              · exact hoid r hr'
            · simp [htotals]
        · exact absurd h (by simp)
      · exact absurd h (by simp)

/-- A map that fixes every element of a list is the identity on it. -/
theorem map_eq_self_of {α : Type} (l : List α) (f : α → α)
    (h : ∀ a ∈ l, f a = a) : l.map f = l := by
  induction l with
  | nil => rfl
  | cons a l ih =>
    simp only [List.map_cons, h a (List.mem_cons_self a l), List.cons.injEq,
      true_and]
    exact ih fun b hb => h b (List.mem_cons_of_mem a hb)

/-- What a successful `createOrder` run did: the result id is the fresh order
id, the returned total is `totalPrice || orderData.total_price` for the
computed items total, every supplied item referenced an existing product, the
item table gained exactly one row per supplied item (each attached to the new
order), and the order table gained exactly one row whose stored total is the
computed total when that is positive and no explicit total was supplied
(truthily), and `orderData.total_price || 0` otherwise. -/
theorem createOrder_ok_spec (fail : Nat → Option JsError) (db : DB)
    (od : OrderData) (hwf : WF db) (db' : DB) (res : CreateResult)
    (h : createOrder fail db od = (db', .ok res)) :
    res.id = db.nextOrderId ∧
    res.total_price = jsOrNum (computedTotal od) od.total_price ∧
    (∀ i ∈ od.items.getD [], i.product_id ∈ db.products) ∧
    (∃ rows, db'.order_items = db.order_items ++ rows ∧
        rows.length = (od.items.getD []).length ∧
        ∀ r ∈ rows, r.order_id = db.nextOrderId) ∧
    ∃ row, db'.orders = db.orders ++ [row] ∧ row.id = db.nextOrderId ∧
      row.total_price =
        (if 0 < computedTotal od ∧ truthyNum od.total_price = false then
          computedTotal od
        else numOrZero od.total_price) := by
  rw [createOrder] at h
  split at h
  · exact absurd h (by simp)
  · split at h
    · rename_i huser
      simp only [] at h
      split at h
      · exact absurd h (by simp)
      · rename_i db2 totalPrice heq
        obtain ⟨hu, hprod, hord, hnoid, hniid, ht', hmem, rows, hitems, hlen,
          hoid, htotals⟩ := insertItems_ok_spec fail db.nextOrderId _ _ _ _ _ heq
        have htp : totalPrice = computedTotal od := by
          rw [ht']; rfl
        have hmem' : ∀ i ∈ od.items.getD [], i.product_id ∈ db.products := by
          intro i hi; simpa using hmem i hi
        split at h
        · rename_i hcond
          split at h
          · exact absurd h (by simp)
          · simp only [Prod.mk.injEq, Except.ok.injEq] at h
            obtain ⟨hdb, hres⟩ := h
            subst hdb; subst hres
            refine ⟨rfl, by rw [htp], hmem', ⟨rows, by simpa using hitems,
              by simpa using hlen, hoid⟩, ?_⟩
            refine ⟨({ id := db.nextOrderId
                       user_id := od.user_id
                       user_name := od.user_name
                       user_location := od.user_location
                       order_status := strOr od.order_status "pending"
                       total_price := totalPrice } : OrderRow), ?_, rfl, ?_⟩
            · have hmap : db2.orders.map (fun o =>
                  if o.id = db.nextOrderId then
                    { o with total_price := totalPrice } else o) =
                  db.orders ++
                    [{ id := db.nextOrderId, user_id := od.user_id,
                       user_name := od.user_name,
                       user_location := od.user_location,
                       order_status := strOr od.order_status "pending",
                       total_price := totalPrice }] := by
                have hordeq : db2.orders = db.orders ++
                    [{ id := db.nextOrderId, user_id := od.user_id,
                       user_name := od.user_name,
                       user_location := od.user_location,
                       order_status := strOr od.order_status "pending",
                       total_price := numOrZero od.total_price }] := by
                  simpa using hord
                rw [hordeq, List.map_append,
                  map_eq_self_of _ _ fun o ho => if_neg
                    (Nat.ne_of_lt (hwf.ordersLt o ho))]
                simp
              exact hmap
            · rw [htp] at hcond ⊢
              rw [if_pos hcond]
        · rename_i hcond
          simp only [Prod.mk.injEq, Except.ok.injEq] at h
          obtain ⟨hdb, hres⟩ := h
          subst hdb; subst hres
          refine ⟨rfl, by rw [htp], hmem', ⟨rows, by simpa using hitems,
            by simpa using hlen, hoid⟩, ?_⟩
          refine ⟨({ id := db.nextOrderId
                     user_id := od.user_id
                     user_name := od.user_name
                     user_location := od.user_location
                     order_status := strOr od.order_status "pending"
                     total_price := numOrZero od.total_price } : OrderRow),
            by simpa using hord, rfl, ?_⟩
          rw [htp] at hcond
          rw [if_neg hcond]
    · exact absurd h (by simp)

/-- A failed `createOrder` run rolled everything back: the returned state is
the caller state, byte for byte. -/
theorem createOrder_error_spec (fail : Nat → Option JsError) (db : DB)
    (od : OrderData) (db' : DB) (e : JsError)
    (h : createOrder fail db od = (db', .error e)) : db' = db := by
  rw [createOrder] at h
  split at h
  · simp only [Prod.mk.injEq] at h; exact h.1.symm
  · split at h
    · simp only [] at h
      split at h
      · simp only [Prod.mk.injEq] at h; exact h.1.symm
      · split at h
        · split at h
          · simp only [Prod.mk.injEq] at h; exact h.1.symm
          · exact absurd h (by simp)
        · exact absurd h (by simp)
    · simp only [Prod.mk.injEq] at h; exact h.1.symm

/-- What a successful `addOrderItem` run did: it returned the computed line
total, appended exactly the one freshly keyed item row carrying that line
total, and bumped the parent order total by it. -/
theorem addOrderItem_ok_spec (fail : Nat → Option JsError) (db : DB)
    (oid : Nat) (item : ItemInput) (db' : DB) (r : AddResult)
    (h : addOrderItem fail db oid item = (db', .ok r)) :
    r.item_total = item.quantity * item.unit_price ∧
    db'.users = db.users ∧ db'.products = db.products ∧
    db'.nextOrderId = db.nextOrderId ∧ db'.nextItemId = db.nextItemId + 1 ∧
    db'.order_items = db.order_items ++
      [⟨db.nextItemId, oid, item.product_id, item.product_name,
        item.quantity, item.unit_price, item.quantity * item.unit_price⟩] ∧
    db'.orders = db.orders.map fun o =>
      if o.id = oid then
        { o with total_price := o.total_price + item.quantity * item.unit_price }
      else o := by
  rw [addOrderItem] at h
  split at h
  · exact absurd h (by simp)
  · split at h
    · split at h
      · simp only [] at h
        split at h
        · exact absurd h (by simp)
        · simp only [Prod.mk.injEq, Except.ok.injEq] at h
          obtain ⟨hdb, hr⟩ := h
          subst hdb; subst hr
          exact ⟨rfl, rfl, rfl, rfl, rfl, rfl, rfl⟩
      · exact absurd h (by simp)
    · exact absurd h (by simp)

/-- A failed `addOrderItem` run rolled back: the returned state is the caller
state. -/
theorem addOrderItem_error_spec (fail : Nat → Option JsError) (db : DB)
    (oid : Nat) (item : ItemInput) (db' : DB) (e : JsError)
    (h : addOrderItem fail db oid item = (db', .error e)) : db' = db := by
  rw [addOrderItem] at h
  split at h
  · simp only [Prod.mk.injEq] at h; exact h.1.symm
  · split at h
    · split at h
      · simp only [] at h
        split at h
        · simp only [Prod.mk.injEq] at h; exact h.1.symm
        · exact absurd h (by simp)
      · simp only [Prod.mk.injEq] at h; exact h.1.symm
    · simp only [Prod.mk.injEq] at h; exact h.1.symm

/-- What a successful `removeOrderItem` run did: the looked-up item row
exists, exactly the rows with its id are gone, and its parent order total
dropped by the stored line total. -/
theorem removeOrderItem_ok_spec (fail : Nat → Option JsError) (db : DB)
    (iid : Nat) (db' : DB) (r : String)
    (h : removeOrderItem fail db iid = (db', .ok r)) :
    ∃ it, db.order_items.find? (fun i => i.id == iid) = some it ∧
      db'.users = db.users ∧ db'.products = db.products ∧
      db'.nextOrderId = db.nextOrderId ∧ db'.nextItemId = db.nextItemId ∧
      db'.order_items = db.order_items.filter (fun i => i.id != iid) ∧
      db'.orders = db.orders.map fun o =>
        if o.id = it.order_id then
          { o with total_price := o.total_price - it.total_price }
        else o := by
  rw [removeOrderItem] at h
  split at h
  · exact absurd h (by simp)
  · split at h
    · exact absurd h (by simp)
    · rename_i it hfind
      split at h
      · exact absurd h (by simp)
      · simp only [] at h
        split at h
        · exact absurd h (by simp)
        · simp only [Prod.mk.injEq, Except.ok.injEq] at h
          obtain ⟨hdb, _⟩ := h
          subst hdb
          exact ⟨it, hfind, rfl, rfl, rfl, rfl, rfl, rfl⟩

/-- A failed `removeOrderItem` run rolled back: the returned state is the
caller state. -/
theorem removeOrderItem_error_spec (fail : Nat → Option JsError) (db : DB)
    (iid : Nat) (db' : DB) (e : JsError)
    (h : removeOrderItem fail db iid = (db', .error e)) : db' = db := by
  rw [removeOrderItem] at h
  split at h
  · simp only [Prod.mk.injEq] at h; exact h.1.symm
  · split at h
    · simp only [Prod.mk.injEq] at h; exact h.1.symm
    · split at h
      · simp only [Prod.mk.injEq] at h; exact h.1.symm
      · simp only [] at h
        split at h
        · simp only [Prod.mk.injEq] at h; exact h.1.symm
        · exact absurd h (by simp)

/-- Bumping one order total through the conditional map keeps every id. -/
theorem bump_id (o : OrderRow) (oid : Nat) (f : Int → Int) :
    ((if o.id = oid then { o with total_price := f o.total_price }
      else o) : OrderRow).id = o.id := by
  split <;> rfl

/-- Removing the (unique) row of a given id from an item list lowers the
per-order line-total sum by that row's contribution to the order, and by
nothing for other orders. -/
theorem filter_ne_sum (items : List ItemRow) (it : ItemRow) (hmem : it ∈ items)
    (hnd : items.Pairwise fun a b => a.id ≠ b.id) (q : Nat) :
    (((items.filter fun i => i.id != it.id).filter
        fun i => i.order_id == q).map fun i => i.total_price).sum =
      ((items.filter fun i => i.order_id == q).map fun i => i.total_price).sum -
        (if it.order_id == q then it.total_price else 0) := by
  induction items with
  | nil => cases hmem
  | cons a rest ih =>
    rcases List.mem_cons.mp hmem with rfl | hmem'
    · have hothers : ∀ x ∈ rest, x.id ≠ it.id := fun x hx =>
        (List.rel_of_pairwise_cons hnd hx).symm
      have hfa : (it :: rest).filter (fun i => i.id != it.id) =
          rest.filter fun i => i.id != it.id := by
        simp [List.filter_cons]
      have hfr : rest.filter (fun i => i.id != it.id) = rest :=
        List.filter_eq_self.mpr fun x hx => by simpa using hothers x hx
      rw [hfa, hfr]
      by_cases hq : it.order_id = q
      · have hbq : ((it.order_id == q) : Bool) = true := by simpa using hq
        simp [List.filter_cons, hbq]
      · have hbq : ((it.order_id == q) : Bool) = false := by simpa using hq
        simp [List.filter_cons, hbq]
    · have hne : a.id ≠ it.id := List.rel_of_pairwise_cons hnd hmem'
      have hbne : ((a.id != it.id) : Bool) = true := by simpa using hne
      have hfa : (a :: rest).filter (fun i => i.id != it.id) =
          a :: rest.filter fun i => i.id != it.id := by
        simp [List.filter_cons, hbne]
      rw [hfa]
      have hrec := ih hmem' hnd.of_cons
      by_cases hq : a.order_id = q
      · have hbq : ((a.order_id == q) : Bool) = true := by simpa using hq
        simp only [List.filter_cons, hbq, if_true, List.map_cons,
          List.sum_cons, hrec]
        ring
      · have hbq : ((a.order_id == q) : Bool) = false := by simpa using hq
        simp only [List.filter_cons, hbq, Bool.false_eq_true, if_false]
        exact hrec

/-- One `addOrderItem` call — successful or rolled back — preserves
well-formedness and the running-total invariant. -/
theorem addOrderItem_preserves (fail : Nat → Option JsError) (db : DB)
    (oid : Nat) (item : ItemInput) (hwf : WF db) (hc : Consistent db) :
    WF (addOrderItem fail db oid item).1 ∧
    Consistent (addOrderItem fail db oid item).1 := by
  rcases hco : addOrderItem fail db oid item with ⟨db', r⟩
  cases r with
  | error e =>
    cases addOrderItem_error_spec fail db oid item db' e hco
    exact ⟨hwf, hc⟩
  | ok r =>
    obtain ⟨hr, hu, hp, hnoid, hniid, hitems, hord⟩ :=
      addOrderItem_ok_spec fail db oid item db' r hco
    have hidpres : ∀ o : OrderRow,
        ((if o.id = oid then
            { o with total_price :=
                o.total_price + item.quantity * item.unit_price }
          else o) : OrderRow).id = o.id := by
      intro o; split <;> rfl
    have hsum : ∀ q : Nat, itemsSum db' q = itemsSum db q +
        (if oid = q then item.quantity * item.unit_price else 0) := by
      intro q
      rw [itemsSum, itemsSum, hitems, List.filter_append, List.map_append,
        List.sum_append]
      by_cases hq : oid = q
      · have hbq : ((oid == q) : Bool) = true := by simpa using hq
        simp [List.filter_cons, hbq, hq]
      · have hbq : ((oid == q) : Bool) = false := by simpa using hq
        simp [List.filter_cons, hbq, hq]
    constructor
    · refine ⟨?_, ?_, ?_, ?_⟩
      · intro o' ho'
        rw [hord] at ho'
        obtain ⟨o, ho, rfl⟩ := List.mem_map.mp ho'
        rw [hidpres, hnoid]
        exact hwf.ordersLt o ho
      · intro i hi
        rw [hitems] at hi
        rcases List.mem_append.mp hi with hi | hi
        · rw [hniid]; exact Nat.lt_succ_of_lt (hwf.itemsLt i hi)
        · rw [List.mem_singleton.mp hi, hniid]
          exact Nat.lt_succ_self _
      · rw [hord]
        refine List.pairwise_map.mpr (hwf.ordersNodup.imp ?_)
        intro a b hab
        rw [hidpres, hidpres]
        exact hab
      · rw [hitems]
        refine List.pairwise_append.mpr ⟨hwf.itemsNodup, by simp, ?_⟩
        intro a ha b hb
        rw [List.mem_singleton.mp hb]
        exact Nat.ne_of_lt (hwf.itemsLt a ha)
    · intro o' ho'
      rw [hord] at ho'
      obtain ⟨o, ho, rfl⟩ := List.mem_map.mp ho'
      rw [hidpres, hsum o.id, ← hc o ho]
      by_cases ho2 : o.id = oid
      · rw [if_pos ho2, if_pos ho2.symm]
      · rw [if_neg ho2, if_neg fun hx => ho2 hx.symm, add_zero]

/-- One `removeOrderItem` call — successful or rolled back — preserves
well-formedness and the running-total invariant. -/
theorem removeOrderItem_preserves (fail : Nat → Option JsError) (db : DB)
    (iid : Nat) (hwf : WF db) (hc : Consistent db) :
    WF (removeOrderItem fail db iid).1 ∧
    Consistent (removeOrderItem fail db iid).1 := by
  rcases hco : removeOrderItem fail db iid with ⟨db', r⟩
  cases r with
  | error e =>
    cases removeOrderItem_error_spec fail db iid db' e hco
    exact ⟨hwf, hc⟩
  | ok r =>
    obtain ⟨it, hfind, hu, hp, hnoid, hniid, hitems, hord⟩ :=
      removeOrderItem_ok_spec fail db iid db' r hco
    have hitmem : it ∈ db.order_items := List.mem_of_find?_eq_some hfind
    have hitid : it.id = iid := by
      have := List.find?_some hfind
      simpa using this
    have hidpres : ∀ o : OrderRow,
        ((if o.id = it.order_id then
            { o with total_price := o.total_price - it.total_price }
          else o) : OrderRow).id = o.id := by
      intro o; split <;> rfl
    subst hitid
    have hsum : ∀ q : Nat, itemsSum db' q = itemsSum db q -
        (if it.order_id = q then it.total_price else 0) := by
      intro q
      rw [itemsSum, itemsSum, hitems]
      have := filter_ne_sum db.order_items it hitmem hwf.itemsNodup q
      rw [this]
      by_cases hq : it.order_id = q
      · have hbq : ((it.order_id == q) : Bool) = true := by simpa using hq
        rw [hbq, if_pos hq]; simp
      · have hbq : ((it.order_id == q) : Bool) = false := by simpa using hq
        rw [hbq, if_neg hq]; simp
    constructor
    · refine ⟨?_, ?_, ?_, ?_⟩
      · intro o' ho'
        rw [hord] at ho'
        obtain ⟨o, ho, rfl⟩ := List.mem_map.mp ho'
        rw [hidpres, hnoid]
        exact hwf.ordersLt o ho
      · intro i hi
        rw [hitems] at hi
        rw [hniid]
        exact hwf.itemsLt i (List.mem_of_mem_filter hi)
      · rw [hord]
        refine List.pairwise_map.mpr (hwf.ordersNodup.imp ?_)
        intro a b hab
        rw [hidpres, hidpres]
        exact hab
      · rw [hitems]
        exact hwf.itemsNodup.sublist (List.filter_sublist _)
    · intro o' ho'
      rw [hord] at ho'
      obtain ⟨o, ho, rfl⟩ := List.mem_map.mp ho'
      rw [hidpres, hsum o.id, ← hc o ho]
      by_cases ho2 : o.id = it.order_id
      · rw [if_pos ho2, if_pos ho2.symm]
      · rw [if_neg ho2, if_neg fun hx => ho2 hx.symm, sub_zero]

/-- One ledger call of either kind preserves well-formedness and the
running-total invariant. -/
theorem applyOp_preserves (db : DB) (op : LedgerOp) (hwf : WF db)
    (hc : Consistent db) : WF (applyOp db op) ∧ Consistent (applyOp db op) := by
  cases op with
  | add fail oid item => exact addOrderItem_preserves fail db oid item hwf hc
  | remove fail iid => exact removeOrderItem_preserves fail db iid hwf hc

/-- Any sequence of ledger calls preserves well-formedness and the
running-total invariant. -/
theorem applyOps_preserves (ops : List LedgerOp) : ∀ db : DB, WF db →
    Consistent db → WF (applyOps db ops) ∧ Consistent (applyOps db ops) := by
  induction ops with
  | nil => intro db hwf hc; exact ⟨hwf, hc⟩
  | cons op rest ih =>
    intro db hwf hc
    obtain ⟨hwf', hc'⟩ := applyOp_preserves db op hwf hc
    exact ih _ hwf' hc'

/-- Every message `verifyToken` produces contains the fragment the
middleware catch block matches on. -/
theorem tokenFail_includes (m : String) :
    jsIncludes ("Token verification failed: " ++ m)
      "Token verification failed" = true := by
  rw [jsIncludes, decide_eq_true_iff]
  refine ⟨[], (": " ++ m).data, ?_⟩
  rw [List.nil_append]
  show "Token verification failed".data ++ (": " ++ m).data =
    ("Token verification failed: " ++ m).data
  rw [String.data_append, String.data_append, ← List.append_assoc]
  congr 1

/-- `List.contains` agrees with decidable membership. -/
theorem contains_eq_decide_mem (l : List String) (a : String) :
    l.contains a = decide (a ∈ l) := by
  by_cases h : a ∈ l <;> simp [h]

/-- A failing `verifyToken` always fails with a message the middleware
classifies as an authentication failure. -/
theorem verifyToken_error_message (verdict : Except String TokenPayload)
    (e : JsError) (h : verifyToken verdict = .error e) :
    jsIncludes e.message "Token verification failed" = true := by
  rw [verifyToken.eq_def] at h
  split at h
  · simp only [Except.error.injEq] at h
    subst h
    exact tokenFail_includes _
  · split at h
    · simp only [Except.error.injEq] at h
      subst h
      exact tokenFail_includes "Invalid token use"
    · exact absurd h (by simp)

/-- An `authenticate` run under valid configuration propagates a failing
token extraction unchanged. -/
theorem authenticate_extract_error (env : AuthEnv)
    (verdict : Except String TokenPayload) (event : AuthEvent)
    (hcfg : (truthyStr env.userPoolId && truthyStr env.clientId) = true)
    (e : JsError) (he : extractToken event.authorization = .error e) :
    authenticate env verdict event = .error e := by
  rw [authenticate, if_pos hcfg, he]

/-- `deleteOrder` under the no-failure oracle commits and reports
`affectedRows = 0` without touching the store whenever neither an order row
nor item rows match the id. -/
theorem deleteOrder_noFail_absent (db : DB) (id : Nat)
    (h1 : ∀ o ∈ db.orders, o.id ≠ id)
    (h2 : ∀ i ∈ db.order_items, i.order_id ≠ id) :
    deleteOrder noFail db id = (db, .ok ⟨"Order deleted successfully", 0⟩) := by
  have e2 : db.order_items.filter (fun i => i.order_id != id) = db.order_items :=
    List.filter_eq_self.mpr fun a ha => by simpa using h2 a ha
  have e1 : db.orders.filter (fun o => o.id != id) = db.orders :=
    List.filter_eq_self.mpr fun a ha => by simpa using h1 a ha
  have e0 : db.orders.filter (fun o => o.id == id) = [] := by
    rw [List.filter_eq_nil_iff]
    intro a ha
    simpa using h1 a ha
  simp [deleteOrder, noFail, e0, e1, e2]

end Orsa

namespace Orsa

/-! ## Claims -/

/-- C1: `createOrder` persists exactly one order row and one item row per
supplied item, or persists nothing: a failed transaction (at any step, under
any failure oracle) leaves the store exactly as it was, and an invalid
product reference on any supplied item forces that failure outcome. -/
theorem createOrder_atomicity (fail : Nat → Option JsError) (db : DB)
    (od : OrderData) (hwf : WF db) :
    (∀ db' e, createOrder fail db od = (db', .error e) → db' = db) ∧
    (∀ db' res, createOrder fail db od = (db', .ok res) →
        (∃ row, db'.orders = db.orders ++ [row] ∧ row.id = res.id) ∧
        ∃ rows, db'.order_items = db.order_items ++ rows ∧
          rows.length = (od.items.getD []).length ∧
          ∀ r ∈ rows, r.order_id = res.id) ∧
    ((∃ i ∈ od.items.getD [], i.product_id ∉ db.products) →
        ∃ e db', createOrder fail db od = (db', .error e) ∧ db' = db) := by
  refine ⟨fun db' e h => createOrder_error_spec fail db od db' e h, ?_, ?_⟩
  · intro db' res h
    obtain ⟨hid, _, _, ⟨rows, hrows, hlen, hoid⟩, row, hrow, hrowid, _⟩ :=
      createOrder_ok_spec fail db od hwf db' res h
    exact ⟨⟨row, hrow, by rw [hid, hrowid]⟩,
      ⟨rows, hrows, hlen, fun r hr => by rw [hid]; exact hoid r hr⟩⟩
  · rintro ⟨i, hi, hbad⟩
    rcases hco : createOrder fail db od with ⟨db', r⟩
    cases r with
    | error e =>
      exact ⟨e, db', rfl, createOrder_error_spec fail db od db' e hco⟩
    | ok res =>
      obtain ⟨_, _, hmem, _⟩ := createOrder_ok_spec fail db od hwf db' res hco
      exact absurd (hmem i hi) hbad

/-- C1 witness: on the sample store, a body whose second item references the
missing product 42 makes `createOrder` fail and roll back completely. -/
theorem createOrder_atomicity_witness :
    ∃ e db', createOrder noFail sampleDB odBadProduct = (db', .error e) ∧
      db' = sampleDB :=
  (createOrder_atomicity noFail sampleDB odBadProduct
      ⟨by decide, by decide, by decide, by decide⟩).2.2
    ⟨⟨42, none, 1, 1⟩, by decide, by decide⟩

/-- C5: a `createOrder` call that supplies a non-empty items list (with the
documented non-negative quantities and unit prices) and no explicit total
stores the sum of the computed line totals as the order total. -/
theorem createOrder_total_is_items_sum (fail : Nat → Option JsError) (db : DB)
    (od : OrderData) (l : List ItemInput) (db' : DB) (res : CreateResult)
    (hwf : WF db) (hitems : od.items = some l) (hne : l ≠ [])
    (hnototal : od.total_price = none)
    (hq : ∀ i ∈ l, 0 ≤ i.quantity) (hp : ∀ i ∈ l, 0 ≤ i.unit_price)
    (h : createOrder fail db od = (db', .ok res)) :
    ∃ row, row ∈ db'.orders ∧ row.id = res.id ∧
      row.total_price = (l.map fun i => i.quantity * i.unit_price).sum := by
  obtain ⟨hid, _, _, _, row, hrow, hrowid, hrowtotal⟩ :=
    createOrder_ok_spec fail db od hwf db' res h
  have hct : computedTotal od = (l.map fun i => i.quantity * i.unit_price).sum := by
    rw [computedTotal, hitems]; rfl
  have hnn : 0 ≤ computedTotal od := by
    rw [hct]
    apply List.sum_nonneg
    intro x hx
    obtain ⟨i, hi, rfl⟩ := List.mem_map.mp hx
    exact mul_nonneg (hq i hi) (hp i hi)
  refine ⟨row, by rw [hrow]; exact List.mem_append_right _ (by simp),
    by rw [hid, hrowid], ?_⟩
  rw [hrowtotal]
  by_cases hpos : 0 < computedTotal od
  · rw [if_pos ⟨hpos, by rw [hnototal]; rfl⟩, hct]
  · have h0 : computedTotal od = 0 := le_antisymm (not_lt.mp hpos) hnn
    rw [if_neg fun hc => hpos hc.1, hnototal, ← hct, h0]
    simp [numOrZero, truthyNum]

/-- C5 witness: the sample body with items totalling 2·15 + 1·9 = 39 and no
explicit total stores 39. -/
theorem createOrder_total_is_items_sum_witness :
    ∃ row, row ∈ (createOrder noFail sampleDB odNoTotal).1.orders ∧
      row.id = (2 : Nat) ∧
      row.total_price =
        (([⟨5, none, 2, 15⟩, ⟨7, none, 1, 9⟩] : List ItemInput).map
          fun i => i.quantity * i.unit_price).sum :=
  createOrder_total_is_items_sum noFail sampleDB odNoTotal
    [⟨5, none, 2, 15⟩, ⟨7, none, 1, 9⟩]
    (createOrder noFail sampleDB odNoTotal).1
    ⟨2, "Order created successfully", some 39⟩
    ⟨by decide, by decide, by decide, by decide⟩
    rfl (by decide) rfl (by decide) (by decide) (by decide)

/-- C9: `createOrder` tests the explicit total by JavaScript truthiness, so a
supplied `total_price = 0` together with a non-empty items list (with the
documented non-negative quantities and prices) is treated like an absent
total: both the stored and the returned total are the computed items sum — a
caller cannot override an order total to 0 at creation. -/
theorem createOrder_zero_total_ignored (fail : Nat → Option JsError) (db : DB)
    (od : OrderData) (l : List ItemInput) (db' : DB) (res : CreateResult)
    (hwf : WF db) (hitems : od.items = some l) (hne : l ≠ [])
    (hzero : od.total_price = some 0)
    (hq : ∀ i ∈ l, 0 ≤ i.quantity) (hp : ∀ i ∈ l, 0 ≤ i.unit_price)
    (h : createOrder fail db od = (db', .ok res)) :
    res.total_price = some ((l.map fun i => i.quantity * i.unit_price).sum) ∧
    ∃ row, row ∈ db'.orders ∧ row.id = res.id ∧
      row.total_price = (l.map fun i => i.quantity * i.unit_price).sum := by
  obtain ⟨hid, hret, _, _, row, hrow, hrowid, hrowtotal⟩ :=
    createOrder_ok_spec fail db od hwf db' res h
  have hct : computedTotal od = (l.map fun i => i.quantity * i.unit_price).sum := by
    rw [computedTotal, hitems]; rfl
  have hnn : 0 ≤ computedTotal od := by
    rw [hct]
    apply List.sum_nonneg
    intro x hx
    obtain ⟨i, hi, rfl⟩ := List.mem_map.mp hx
    exact mul_nonneg (hq i hi) (hp i hi)
  have htfalse : truthyNum od.total_price = false := by
    rw [hzero]; rfl
  constructor
  · rw [hret, ← hct]
    by_cases h0 : computedTotal od = 0
    · rw [jsOrNum, h0, hzero]
      simp
    · rw [jsOrNum]
      simp [h0]
  · refine ⟨row, by rw [hrow]; exact List.mem_append_right _ (by simp),
      by rw [hid, hrowid], ?_⟩
    rw [hrowtotal]
    by_cases hpos : 0 < computedTotal od
    · rw [if_pos ⟨hpos, htfalse⟩, hct]
    · have h0 : computedTotal od = 0 := le_antisymm (not_lt.mp hpos) hnn
      rw [if_neg fun hc => hpos hc.1, hzero, ← hct, h0]
      simp [numOrZero, truthyNum]

/-- C9 witness: supplying `total_price = 0` with one item of line total 10
stores and returns 10. -/
theorem createOrder_zero_total_ignored_witness :
    (⟨2, "Order created successfully", some 10⟩ : CreateResult).total_price =
      some ((([⟨5, none, 2, 5⟩] : List ItemInput).map
        fun i => i.quantity * i.unit_price).sum) ∧
    ∃ row, row ∈ (createOrder noFail sampleDB odZeroTotal).1.orders ∧
      row.id = (⟨2, "Order created successfully", some 10⟩ : CreateResult).id ∧
      row.total_price =
        (([⟨5, none, 2, 5⟩] : List ItemInput).map
          fun i => i.quantity * i.unit_price).sum :=
  createOrder_zero_total_ignored noFail sampleDB odZeroTotal
    [⟨5, none, 2, 5⟩]
    (createOrder noFail sampleDB odZeroTotal).1
    ⟨2, "Order created successfully", some 10⟩
    ⟨by decide, by decide, by decide, by decide⟩
    rfl (by decide) rfl (by decide) (by decide) (by decide)

/-- C6 counterexample: with an explicit total of 100 and one item of computed
line total 10, `createOrder` stores 100 on the order row but returns 10 —
the returned total is neither the explicit value nor the stored value, so
the claimed return contract fails at this input. -/
theorem createOrder_returned_total_counterexample :
    (createOrder noFail sampleDB odExplicitTotal).2 =
      .ok ⟨2, "Order created successfully", some 10⟩ ∧
    ((createOrder noFail sampleDB odExplicitTotal).1.orders.find?
        fun o => o.id == 2) =
      some { id := 2, user_id := 1, user_name := none, user_location := none,
             order_status := "pending", total_price := 100 } ∧
    (some (10 : Int) ≠ some (100 : Int)) :=
  ⟨rfl, rfl, by decide⟩

/-- C6 (amended): the returned total of a successful `createOrder` is the
computed items sum whenever that sum is nonzero, and the raw caller-supplied
`total_price` field otherwise; the stored order total is the explicit total
whenever one was truthily supplied.  In particular, with an explicit total
and a nonzero computed items sum, the caller gets back the computed sum
while the row keeps the explicit total. -/
theorem createOrder_resolved_total (fail : Nat → Option JsError) (db : DB)
    (od : OrderData) (db' : DB) (res : CreateResult) (hwf : WF db)
    (h : createOrder fail db od = (db', .ok res)) :
    (computedTotal od ≠ 0 → res.total_price = some (computedTotal od)) ∧
    (computedTotal od = 0 → res.total_price = od.total_price) ∧
    (truthyNum od.total_price = true →
      ∃ row, row ∈ db'.orders ∧ row.id = res.id ∧
        row.total_price = od.total_price.getD 0) := by
  obtain ⟨hid, hret, _, _, row, hrow, hrowid, hrowtotal⟩ :=
    createOrder_ok_spec fail db od hwf db' res h
  refine ⟨fun hne => ?_, fun h0 => ?_, fun htr => ?_⟩
  · rw [hret, jsOrNum]
    simp [hne]
  · rw [hret, jsOrNum, h0]
    simp
  · refine ⟨row, by rw [hrow]; exact List.mem_append_right _ (by simp),
      by rw [hid, hrowid], ?_⟩
    rw [hrowtotal, if_neg fun hc => by rw [htr] at hc; exact absurd hc.2 (by decide),
      numOrZero, htr]
    simp

/-- C6 amended witness: the explicit-total body with computed sum 10 returns
10 and stores 100. -/
theorem createOrder_resolved_total_witness :
    (computedTotal odExplicitTotal ≠ 0 →
      (⟨2, "Order created successfully", some 10⟩ : CreateResult).total_price =
        some (computedTotal odExplicitTotal)) ∧
    (computedTotal odExplicitTotal = 0 →
      (⟨2, "Order created successfully", some 10⟩ : CreateResult).total_price =
        odExplicitTotal.total_price) ∧
    (truthyNum odExplicitTotal.total_price = true →
      ∃ row, row ∈ (createOrder noFail sampleDB odExplicitTotal).1.orders ∧
        row.id = (⟨2, "Order created successfully", some 10⟩ : CreateResult).id ∧
        row.total_price = odExplicitTotal.total_price.getD 0) :=
  createOrder_resolved_total noFail sampleDB odExplicitTotal
    (createOrder noFail sampleDB odExplicitTotal).1
    ⟨2, "Order created successfully", some 10⟩
    ⟨by decide, by decide, by decide, by decide⟩
    (by decide)

/-- C2: starting from a well-formed, price-consistent store, after any
sequence of `addOrderItem` / `removeOrderItem` calls (each a single
transaction, possibly failing and rolling back) every order total equals the
sum of the stored line totals of its attached items; moreover a successful
`addOrderItem` bumps exactly the parent order total by
`quantity * unit_price` of the inserted row, and a successful
`removeOrderItem` lowers exactly the parent order total by the stored
`total_price` of the deleted row. -/
theorem ledger_running_total_invariant (db : DB) (hwf : WF db)
    (hc : Consistent db) :
    (∀ ops : List LedgerOp, Consistent (applyOps db ops)) ∧
    (∀ fail oid item db' r, addOrderItem fail db oid item = (db', .ok r) →
        r.item_total = item.quantity * item.unit_price ∧
        db'.orders = db.orders.map fun o =>
          if o.id = oid then
            { o with total_price :=
                o.total_price + item.quantity * item.unit_price }
          else o) ∧
    (∀ fail iid db' r, removeOrderItem fail db iid = (db', .ok r) →
        ∃ it, it ∈ db.order_items ∧ it.id = iid ∧
          db'.order_items = db.order_items.filter (fun i => i.id != iid) ∧
          db'.orders = db.orders.map fun o =>
            if o.id = it.order_id then
              { o with total_price := o.total_price - it.total_price }
            else o) := by
  refine ⟨fun ops => (applyOps_preserves ops db hwf hc).2, ?_, ?_⟩
  · intro fail oid item db' r h
    obtain ⟨hr, _, _, _, _, _, hord⟩ :=
      addOrderItem_ok_spec fail db oid item db' r h
    exact ⟨hr, hord⟩
  · intro fail iid db' r h
    obtain ⟨it, hfind, _, _, _, _, hitems, hord⟩ :=
      removeOrderItem_ok_spec fail db iid db' r h
    have hitid : it.id = iid := by simpa using List.find?_some hfind
    exact ⟨it, List.mem_of_find?_eq_some hfind, hitid, hitems, hord⟩

/-- C2 witness: the sample store stays consistent across a concrete
add-then-remove sequence. -/
theorem ledger_running_total_invariant_witness :
    Consistent (applyOps sampleDB
      [.add noFail 1 ⟨9, none, 3, 10⟩, .remove noFail 1]) :=
  (ledger_running_total_invariant sampleDB
      ⟨by decide, by decide, by decide, by decide⟩
      (by unfold Consistent; decide)).1
    [.add noFail 1 ⟨9, none, 3, 10⟩, .remove noFail 1]

/-- C3 counterexample: the `handler.js` add-item endpoint (the one routed by
`serverless.yml`), backed by the status-blind service `addOrderItem`,
happily adds an item to the sample order whose status is `shipped`: it
answers 201 and inserts the row instead of failing with an
order-not-modifiable error. -/
theorem addOrderItem_status_unchecked_counterexample :
    ((handlerAddOrderItem noFail sampleDB (some 1)
        ⟨some 9, none, some 3, some 10⟩).2).statusCode = 201 ∧
    (handlerAddOrderItem noFail sampleDB (some 1)
        ⟨some 9, none, some 3, some 10⟩).1.order_items.length =
      sampleDB.order_items.length + 1 ∧
    ((sampleDB.orders.find? fun o => o.id == 1).map fun o => o.order_status) =
      some "shipped" := by decide

/-- C3 (amended): the status gate lives only in the enhanced handler
variant: its add-item endpoint rejects any order whose status is `shipped`,
`delivered`, or `cancelled` with a 400 `Order cannot be modified` response,
inserting no row and changing no total; the `handler.js` endpoint and the
service layer perform no status check at all (see the counterexample). -/
theorem enhancedAddOrderItem_rejects_locked_status (fail : Nat → Option JsError)
    (db : DB) (orderId : Nat) (item : ItemInput) (o : OrderRow)
    (its : List ItemRow) (hfind : getOrderById db orderId = some (o, its))
    (hstatus : o.order_status ∈ ["shipped", "delivered", "cancelled"]) :
    enhancedAddOrderItem fail db orderId item =
      (db, { statusCode := 400, error := some "Order cannot be modified",
             message := some
               "Items can only be added to orders with status: pending, confirmed" }) := by
  have hgate : editableStatuses.contains (jsToLower o.order_status) = false := by
    rcases (by simpa using hstatus :
        o.order_status = "shipped" ∨ o.order_status = "delivered" ∨
          o.order_status = "cancelled") with h | h | h <;> rw [h] <;> decide
  simp [enhancedAddOrderItem, hfind, hgate]
  intro hmem
  exact absurd hmem (by simpa using hgate)

/-- C3 amended witness: the enhanced gate rejects the sample shipped
order. -/
theorem enhancedAddOrderItem_rejects_locked_status_witness :
    enhancedAddOrderItem noFail sampleDB 1 ⟨9, none, 3, 10⟩ =
      (sampleDB,
        { statusCode := 400, error := some "Order cannot be modified",
          message := some
            "Items can only be added to orders with status: pending, confirmed" }) :=
  enhancedAddOrderItem_rejects_locked_status noFail sampleDB 1
    ⟨9, none, 3, 10⟩ ⟨1, 1, none, none, "shipped", 20⟩
    [⟨1, 1, 5, none, 2, 10, 20⟩] (by decide) (by decide)

/-- C10: for an id matching no orders row (and hence, with referential
integrity, no item rows), service-level `deleteOrder` still succeeds: it
commits, leaves the store untouched, and returns a success acknowledgment
with `affectedRows = 0` instead of a not-found error; consequently running
`deleteOrder` twice on the same id leaves the same state as running it
once. -/
theorem deleteOrder_missing_id_succeeds (db : DB) (id : Nat)
    (h1 : ∀ o ∈ db.orders, o.id ≠ id)
    (h2 : ∀ i ∈ db.order_items, i.order_id ≠ id) :
    deleteOrder noFail db id = (db, .ok ⟨"Order deleted successfully", 0⟩) ∧
    ∀ db0 : DB, deleteOrder noFail (deleteOrder noFail db0 id).1 id =
      ((deleteOrder noFail db0 id).1, .ok ⟨"Order deleted successfully", 0⟩) := by
  refine ⟨deleteOrder_noFail_absent db id h1 h2, fun db0 => ?_⟩
  have hdb1 : (deleteOrder noFail db0 id).1 =
      { db0 with
          order_items := db0.order_items.filter fun i => i.order_id != id,
          orders := db0.orders.filter fun o => o.id != id } := by
    simp [deleteOrder, noFail]
  rw [hdb1]
  apply deleteOrder_noFail_absent
  · intro o ho
    simp only [List.mem_filter] at ho
    simpa using ho.2
  · intro i hi
    simp only [List.mem_filter] at hi
    simpa using hi.2

/-- C10 witness: a concrete run on `sampleDB` with the absent id 7. -/
theorem deleteOrder_missing_id_succeeds_witness :
    deleteOrder noFail sampleDB 7 =
      (sampleDB, .ok ⟨"Order deleted successfully", 0⟩) :=
  (deleteOrder_missing_id_succeeds sampleDB 7 (by decide) (by decide)).1

set_option maxRecDepth 8000 in
/-- C7: on the direct-authentication path of `withAuth`, for any
non-preflight request that is not dev-skipped and any route options: a
missing Authorization header, a malformed header (any failing token
extraction), or an unverifiable token (any failing verification) yields the
401 response regardless of the admin requirement, and a verified identity
without the admin flag on an admin-gated route yields the 403 response —
the admin check runs only after successful authentication. -/
theorem withAuth_admin_gate (opts : AuthOptions) (env : AuthEnv)
    (extAuth : Except JsError AuthUser) (verdict : Except String TokenPayload)
    (handler : Option AuthUser → ApiResponse) (event : AuthEvent)
    (hvpc : env.vpcFunction ≠ some "true") (hext : opts.useExternalAuth = false)
    (hcfg : (truthyStr env.userPoolId && truthyStr env.clientId) = true)
    (hm : event.httpMethod ≠ some "OPTIONS")
    (hskip : ¬(opts.skipAuth = true ∧ env.stage = some "dev")) :
    (event.authorization = none →
      withAuth opts env extAuth verdict handler event = unauthorizedResponse) ∧
    (∀ e, extractToken event.authorization = .error e →
      withAuth opts env extAuth verdict handler event = unauthorizedResponse) ∧
    (∀ e, verifyToken verdict = .error e →
      withAuth opts env extAuth verdict handler event = unauthorizedResponse) ∧
    (∀ u, authenticate env verdict event = .ok u → opts.requireAdmin = true →
      u.isAdmin = false →
      withAuth opts env extAuth verdict handler event = forbiddenResponse) := by
  have hao : authOutcome opts env extAuth verdict event =
      authenticate env verdict event := by
    rw [authOutcome.eq_def, if_neg]
    rintro (h | h)
    · exact hvpc h
    · exact Bool.false_ne_true (hext ▸ h)
  have hskipb : (opts.skipAuth && decide (env.stage = some "dev")) ≠ true := by
    intro hcontra
    rcases Bool.and_eq_true _ _ |>.mp hcontra with ⟨h1, h2⟩
    exact hskip ⟨h1, of_decide_eq_true h2⟩
  have hroute : withAuth opts env extAuth verdict handler event =
      match authenticate env verdict event with
      | .error e => classifyAuthError e
      | .ok user =>
        if opts.requireAdmin && !user.isAdmin then forbiddenResponse
        else handler (some user) := by
    rw [withAuth, if_neg hm, if_neg hskipb, hao]
  have hfail : ∀ e, authenticate env verdict event = .error e →
      classifyAuthError e = unauthorizedResponse →
      withAuth opts env extAuth verdict handler event = unauthorizedResponse := by
    intro e hae hcl
    rw [hroute, hae]
    exact hcl
  have part2 : ∀ e, extractToken event.authorization = .error e →
      withAuth opts env extAuth verdict handler event = unauthorizedResponse := by
    intro e he
    have hcl : classifyAuthError e = unauthorizedResponse := by
      cases hauth : event.authorization with
      | none =>
        rw [hauth] at he
        simp only [extractToken, Except.error.injEq] at he
        subst he
        decide
      | some hdr =>
        rw [hauth, extractToken.eq_def] at he
        simp only [] at he
        split at he
        · exact absurd he (by simp)
        · simp only [Except.error.injEq] at he
          subst he
          decide
    exact hfail e (authenticate_extract_error env verdict event hcfg e he) hcl
  refine ⟨?_, part2, ?_, ?_⟩
  · intro hnone
    exact part2 _ (by rw [hnone]; rfl)
  · intro e he
    cases hex : extractToken event.authorization with
    | error e2 => exact part2 e2 hex
    | ok tok =>
      have hae : authenticate env verdict event = .error e := by
        rw [authenticate, if_pos hcfg, hex, he]
      have hcl : classifyAuthError e = unauthorizedResponse := by
        rw [classifyAuthError, if_pos]
        rw [verifyToken_error_message verdict e he]
        simp
      exact hfail e hae hcl
  · intro u hu hadmin hnoadm
    rw [hroute, hu]
    simp [hadmin, hnoadm]

/-- C7 witness: a concrete header-less admin-route request gets 401 and a
concrete verified non-admin request to the same route gets 403. -/
theorem withAuth_admin_gate_witness :
    withAuth { requireAdmin := true } sampleEnv (.error ⟨none, "ext down"⟩)
      (.ok payloadNonAdmin) (fun _ => { statusCode := 200 })
      { httpMethod := some "POST", authorization := none } =
      unauthorizedResponse ∧
    withAuth { requireAdmin := true } sampleEnv (.error ⟨none, "ext down"⟩)
      (.ok payloadNonAdmin) (fun _ => { statusCode := 200 }) sampleEvent =
      forbiddenResponse := by
  constructor
  · exact (withAuth_admin_gate { requireAdmin := true } sampleEnv
      (.error ⟨none, "ext down"⟩) (.ok payloadNonAdmin)
      (fun _ => { statusCode := 200 })
      { httpMethod := some "POST", authorization := none }
      (by decide) rfl (by decide) (by decide) (by decide)).1 rfl
  · exact (withAuth_admin_gate { requireAdmin := true } sampleEnv
      (.error ⟨none, "ext down"⟩) (.ok payloadNonAdmin)
      (fun _ => { statusCode := 200 }) sampleEvent
      (by decide) rfl (by decide) (by decide) (by decide)).2.2.2
      ⟨"s1", some "bob", none, ["users"], "access", "client", false⟩
      (by decide) rfl rfl

/-- C8 counterexample: with both the `username` and `cognito:username`
claims absent, `authenticate` derives an identity whose username is absent —
it does not fall back to the subject `user-sub-1` as claimed. -/
theorem authenticate_username_counterexample :
    authenticate sampleEnv (.ok payloadNoUsername) sampleEvent =
      .ok ⟨"user-sub-1", none, none, [], "access", "client", false⟩ ∧
    (⟨"user-sub-1", none, none, [], "access", "client",
        false⟩ : AuthUser).username ≠ some payloadNoUsername.sub := by
  constructor
  · decide
  · decide

/-- C8 (amended): for every verified payload reaching the mapping (valid
configuration, extractable token, verification passed), the derived identity
is the pure mapping of the spec with one correction: the username falls back
to the `cognito:username` claim — never to the subject — and is absent when
both claims are absent; the group list defaults to empty and the admin flag
holds exactly when the groups contain the exact, case-sensitive string
`"admin"`. -/
theorem authenticate_identity_mapping (env : AuthEnv)
    (verdict : Except String TokenPayload) (event : AuthEvent)
    (p : TokenPayload) (tok : String)
    (hcfg : (truthyStr env.userPoolId && truthyStr env.clientId) = true)
    (hextok : extractToken event.authorization = .ok tok)
    (hverd : verifyToken verdict = .ok p) :
    authenticate env verdict event = .ok (deriveIdentitySpec p) := by
  rw [authenticate, if_pos hcfg, hextok, hverd, deriveIdentitySpec]
  have hg : p.cognitoGroups.getD [] =
      match p.cognitoGroups with | none => [] | some g => g := by
    cases p.cognitoGroups <;> rfl
  have hc : (p.cognitoGroups.getD []).contains "admin" =
      decide ("admin" ∈
        (match p.cognitoGroups with | none => [] | some g => g)) := by
    rw [contains_eq_decide_mem, hg]
  rw [Except.ok.injEq, hc, hg]

/-- C8 amended witness: a concrete payload with only a `cognito:username`
claim maps to the spec mapping. -/
theorem authenticate_identity_mapping_witness :
    authenticate sampleEnv (.ok payloadNonAdmin) sampleEvent =
      .ok (deriveIdentitySpec payloadNonAdmin) :=
  authenticate_identity_mapping sampleEnv (.ok payloadNonAdmin) sampleEvent
    payloadNonAdmin "abc" (by decide) (by decide) (by decide)

/-- C4 (code bug): `removeOrderItem` on an unknown item id fails with the
`Item not found` error and leaves the store untouched — but the DELETE
endpoint funnels that plain error (which carries no driver code) through
`handleError`, producing HTTP 500, not the 404 the route is documented to
return. -/
theorem removeOrderItem_missing_returns_500 :
    removeOrderItem noFail sampleDB 999 = (sampleDB, .error itemNotFoundError) ∧
    handlerRemoveOrderItem noFail sampleDB (some 999) =
      (sampleDB, { statusCode := 500, error := some "Server error",
                   message := some "Item not found" }) := by
  constructor <;> rfl

end Orsa
